import Mathlib

/-!
Verification of the go-tilepacks tile-archive tools against their
natural-language specification.

The development shallowly embeds the relevant Go code:

* `doHTTPWithRetry` (cmd/build/main.go, lines 40-64): the retrying fetcher.
  The HTTP client is abstracted as an oracle mapping the attempt index to
  the outcome of `client.Do` (a transport error or a status code); the
  function's observable behaviour (result, number of attempts, sleep
  durations in nanoseconds) is returned as a trace.
* the mbtiles outputter (`mbtilesOutputter`, `CreateTiles`,
  `AssignMetadata`, `Save`, `Close`): the SQLite tables are modelled as
  association lists, `INSERT OR REPLACE` as delete-then-append keyed by the
  unique index, plain `INSERT` against a unique index as a fallible insert,
  and the open write transaction as an optional working copy of the
  database committed on the batch boundary or on `Close`.
* the mbtiles reader (`GetTile`, the `tiles` view) over the same table
  model.
* the merge tool zoom-range aggregation and tile-copy loop
  (cmd/merge/main.go).

Machine integers: tile coordinates are modelled as `Nat`; the Go code uses
`uint32`/`uint` values that coincide with the `Nat` model on the tile
invariant `Y < 2^Z` with `Z < 32`, which every input considered here
satisfies. Sleep durations are `Nat` nanoseconds, matching the Go
`time.Duration` values on the values reached here (all far below 2^63).
-/

/-- Outcome of one `client.Do(request)` call: a transport error, or an HTTP
response carrying a status code.  The body is irrelevant to the retry
logic. -/
inductive DoOutcome where
  | netErr (msg : String)
  | resp (status : Nat)
deriving Repr, DecidableEq

/-- Observable trace of `doHTTPWithRetry`: the returned value (an HTTP
status on success, the error string on failure), how many `client.Do`
attempts were performed, and the list of `time.Sleep` durations (in
nanoseconds) in the order they happened. -/
structure RetryTrace where
  result : Except String Nat
  attempts : Nat
  sleepsNs : List Nat
deriving Repr

/-- Loop body of `doHTTPWithRetry` (cmd/build/main.go lines 43-61).
`fuel` counts the remaining loop iterations (`i < nRetries`), `i` the next
attempt index, `sleepNs` the current value of the `sleep` variable
(`time.Duration`, i.e. nanoseconds).  A response with status 200 returns;
any other status falls through to the next iteration; only statuses with
`500 < status < 600` first sleep, then double the sleep and clamp it:
the Go source compares `sleep > 30.0`, which as a `time.Duration` is 30
nanoseconds, before resetting to `30 * time.Second`. -/
def retryLoopAux (oracle : Nat → DoOutcome) :
    Nat → Nat → Nat → List Nat → RetryTrace
  | 0, i, _, sleeps =>
    ⟨Except.error "ran out of HTTP GET retries", i, sleeps.reverse⟩
  | fuel + 1, i, sleepNs, sleeps =>
    match oracle i with
    | DoOutcome.netErr msg => ⟨Except.error msg, i + 1, sleeps.reverse⟩
    | DoOutcome.resp status =>
      if status = 200 then ⟨Except.ok status, i + 1, sleeps.reverse⟩
      else if 500 < status ∧ status < 600 then
        let doubled := sleepNs * 2
        let nextSleep := if 30 < doubled then 30000000000 else doubled
        retryLoopAux oracle fuel (i + 1) nextSleep (sleepNs :: sleeps)
      else
        retryLoopAux oracle fuel (i + 1) sleepNs sleeps

/-- Embedding of `doHTTPWithRetry(client, request, nRetries)`.  The loop
`for i := 0; i < nRetries; i++` executes exactly `max nRetries 0`
iterations, so a non-positive budget performs no attempt; the initial
sleep is `500 * time.Millisecond` = 500000000 ns. -/
def doHTTPWithRetry (oracle : Nat → DoOutcome) (nRetries : Int) : RetryTrace :=
  retryLoopAux oracle nRetries.toNat 0 500000000 []

/-- Oracle of a fetch target answering 404 on the first attempt and 200
afterwards. -/
def notFoundThenOk : Nat → DoOutcome :=
  fun i => if i = 0 then DoOutcome.resp 404 else DoOutcome.resp 200

/-- Oracle of a fetch target answering 503 on every attempt. -/
def always503 : Nat → DoOutcome := fun _ => DoOutcome.resp 503

/-- Oracle of a fetch target answering 404 on every attempt. -/
def always404 : Nat → DoOutcome := fun _ => DoOutcome.resp 404

/-- Oracle of a fetch target answering 200 immediately. -/
def alwaysOk : Nat → DoOutcome := fun _ => DoOutcome.resp 200

/-- Helper for the amended C3 statement: with every response in the first
`fuel` attempts a non-200, non-(501..599) status, the loop runs to
exhaustion with no sleeps. -/
theorem retryLoopAux_terminalless (oracle : Nat → DoOutcome) :
    ∀ (fuel i sleepNs : Nat) (sleeps : List Nat),
      (∀ j, j < fuel → ∃ s, oracle (i + j) = DoOutcome.resp s ∧
        s ≠ 200 ∧ ¬(500 < s ∧ s < 600)) →
      retryLoopAux oracle fuel i sleepNs sleeps =
        ⟨Except.error "ran out of HTTP GET retries", i + fuel, sleeps.reverse⟩ := by
  intro fuel
  induction fuel with
  | zero => intro i sleepNs sleeps _; simp [retryLoopAux]
  | succ n ih =>
    intro i sleepNs sleeps h
    obtain ⟨s, hs, hs200, hs5⟩ := h 0 (Nat.succ_pos n)
    rw [Nat.add_zero] at hs
    have hrec := ih (i + 1) sleepNs sleeps (by
      intro j hj
      have := h (j + 1) (Nat.succ_lt_succ hj)
      rwa [Nat.add_comm j 1, ← Nat.add_assoc] at this)
    simp only [retryLoopAux, hs]
    rw [if_neg hs200, if_neg hs5, hrec]
    have : i + 1 + n = i + (n + 1) := by omega
    rw [this]

/-- C3: the claim states that only 5xx responses lead to a retried attempt
and that a first response of 404 is terminal with zero retries.  In the
code the loop falls through to the next attempt on every non-200 status:
with a target answering 404 then 200 and the production budget of 30, a
second attempt is made and the 200 payload is returned. -/
theorem C3_notfound_retried_counterexample :
    (doHTTPWithRetry notFoundThenOk 30).attempts = 2 ∧
    (doHTTPWithRetry notFoundThenOk 30).result = Except.ok 200 := by
  constructor <;> rfl

/-- C3 (amended): a non-200, non-5xx response is not terminal: every such
response is followed by another attempt while the budget lasts, and only
statuses in 501..599 trigger a backoff sleep.  A request whose responses
are all non-200, non-5xx statuses is retried until the budget `nRetries`
is exhausted, with no sleeps, and then fails. -/
theorem C3_non200_retried_without_sleep (oracle : Nat → DoOutcome)
    (nRetries : Int)
    (h : ∀ j, j < nRetries.toNat → ∃ s, oracle j = DoOutcome.resp s ∧
      s ≠ 200 ∧ ¬(500 < s ∧ s < 600)) :
    doHTTPWithRetry oracle nRetries =
      ⟨Except.error "ran out of HTTP GET retries", nRetries.toNat, []⟩ := by
  unfold doHTTPWithRetry
  rw [retryLoopAux_terminalless oracle nRetries.toNat 0 500000000 [] (by
    intro j hj
    rw [Nat.zero_add]
    exact h j hj)]
  simp

/-- Witness for the amended C3: a target answering 404 forever, with a
budget of 3, is attempted 3 times, never slept on, and dropped. -/
theorem C3_non200_retried_without_sleep_witness :
    doHTTPWithRetry always404 3 =
      ⟨Except.error "ran out of HTTP GET retries", 3, []⟩ :=
  C3_non200_retried_without_sleep always404 3 (by
    intro j _
    exact ⟨404, rfl, by decide, by decide⟩)

/-- C4: the claim states the waits before successive retries are 500ms,
1s, 2s, 4s, ... each capped at 30s.  In the code `sleep > 30.0` compares
the duration against 30 nanoseconds (the intended constant, visible in the
assignment on the next line, is `30 * time.Second`), so the first doubling
already exceeds the cap: three consecutive 503 responses are slept on for
500ms, 30s and 30s. -/
theorem C4_backoff_schedule_observed :
    (doHTTPWithRetry always503 3).sleepsNs =
      [500000000, 30000000000, 30000000000] ∧
    (doHTTPWithRetry always503 3).attempts = 3 := by
  constructor <;> rfl

/-- Helper for C9: the loop returns `Except.ok` only with status 200. -/
theorem retryLoopAux_ok_200 (oracle : Nat → DoOutcome) :
    ∀ (fuel i sleepNs : Nat) (sleeps : List Nat) (s : Nat),
      (retryLoopAux oracle fuel i sleepNs sleeps).result = Except.ok s →
      s = 200 := by
  intro fuel
  induction fuel with
  | zero =>
    intro i sleepNs sleeps s h
    simp [retryLoopAux] at h
  | succ n ih =>
    intro i sleepNs sleeps s h
    unfold retryLoopAux at h
    split at h
    · simp at h
    · split at h
      · simp at h
        omega
      · split at h
        · exact ih _ _ _ _ h
        · exact ih _ _ _ _ h

/-- C9: if `doHTTPWithRetry` returns a nil error the returned response has
status exactly 200, and for a non-positive retry budget it returns a
non-nil error having performed no request. -/
theorem C9_success_is_200 (oracle : Nat → DoOutcome) (nRetries : Int) :
    (∀ s, (doHTTPWithRetry oracle nRetries).result = Except.ok s → s = 200) ∧
    (nRetries ≤ 0 →
      (doHTTPWithRetry oracle nRetries).attempts = 0 ∧
      (doHTTPWithRetry oracle nRetries).result =
        Except.error "ran out of HTTP GET retries") := by
  constructor
  · intro s h
    exact retryLoopAux_ok_200 oracle _ _ _ _ s h
  · intro hle
    have : nRetries.toNat = 0 := Int.toNat_of_nonpos hle
    unfold doHTTPWithRetry
    rw [this]
    exact ⟨rfl, rfl⟩

/-- Witness for C9: a target answering 200 at once yields status 200 with
one attempt, and a budget of -3 performs no attempt and errors. -/
theorem C9_success_is_200_witness :
    (200 : Nat) = 200 ∧
    ((doHTTPWithRetry alwaysOk (-3)).attempts = 0 ∧
      (doHTTPWithRetry alwaysOk (-3)).result =
        Except.error "ran out of HTTP GET retries") :=
  ⟨(C9_success_is_200 alwaysOk 1).1 200 rfl,
    (C9_success_is_200 alwaysOk (-3)).2 (by decide)⟩

/-- Byte sequence (Go `[]byte`); each entry is one byte value. -/
abbrev ByteSeq := List Nat

/-- Tile coordinate (tilepack.Tile / maptile.Tile: zoom, column, row). -/
structure Tile where
  z : Nat
  x : Nat
  y : Nat
deriving Repr, DecidableEq

/-- Row of the `map` table: (zoom_level, tile_column, tile_row, tile_id),
with a unique index on (zoom_level, tile_column, tile_row). -/
structure MapRow where
  zoom_level : Nat
  tile_column : Nat
  tile_row : Nat
  tile_id : String
deriving Repr, DecidableEq

/-- Row of the `images` table: (tile_data, tile_id), with a unique index
on tile_id. -/
structure ImagesRow where
  tile_id : String
  tile_data : ByteSeq
deriving Repr, DecidableEq

/-- The three mbtiles tables created by `CreateTiles`, each modelled as a
list of rows in rowid (insertion) order. -/
structure DbState where
  map : List MapRow
  images : List ImagesRow
  metadata : List (String × String)
deriving Repr, DecidableEq

/-- A freshly created (empty) database file. -/
def DbState.empty : DbState := ⟨[], [], []⟩

/-- Statement `INSERT OR REPLACE INTO images (tile_id, tile_data) VALUES (?, ?)`:
the unique index on tile_id makes this delete any conflicting row and
append the new one. -/
def upsertImages (db : DbState) (tid : String) (data : ByteSeq) : DbState :=
  { db with images :=
      db.images.filter (fun r => r.tile_id != tid) ++ [⟨tid, data⟩] }

/-- Predicate of the unique index on map (zoom_level, tile_column,
tile_row). -/
def mapKeyMatch (z x row : Nat) (r : MapRow) : Bool :=
  r.zoom_level == z && r.tile_column == x && r.tile_row == row

/-- Statement `INSERT OR REPLACE INTO map (zoom_level, tile_column,
tile_row, tile_id) VALUES (?, ?, ?, ?)`: the unique index on (zoom_level,
tile_column, tile_row) makes this delete any conflicting row and append
the new one. -/
def upsertMap (db : DbState) (z x row : Nat) (tid : String) : DbState :=
  { db with map :=
      db.map.filter (fun r => !mapKeyMatch z x row r) ++ [⟨z, x, row, tid⟩] }

/-- Statement `INSERT INTO metadata (name, value) VALUES(?, ?)`: a plain insert that
the unique index on `name` rejects when the key is already present,
surfacing the wrapped error `AssignMetadata` builds for that key. -/
def insertMetadataRow (rows : List (String × String)) (name value : String) :
    Except String (List (String × String)) :=
  if rows.any (fun r => r.1 == name) then
    Except.error ("Failed to add " ++ name ++ " metadata key")
  else
    Except.ok (rows ++ [(name, value)])

/-- Embedding of `mbtilesOutputter.AssignMetadata`: inserts the four
required keys with plain `INSERT` via `o.db.Exec`.  The bounds and center
values are `%f`-rendered floats in Go, abstracted here as the
pre-rendered strings the outputter was constructed with; the zoom values
are rendered with `strconv.Itoa`.  Go iterates the literal map in
unspecified order; the model fixes the order bounds, center, minzoom,
maxzoom (which key's insert fails first is not relied on by any claim). -/
def AssignMetadata (db : DbState) (boundsStr centerStr : String)
    (minZoom maxZoom : Nat) : Except String DbState := do
  let m1 ← insertMetadataRow db.metadata "bounds" boundsStr
  let m2 ← insertMetadataRow m1 "center" centerStr
  let m3 ← insertMetadataRow m2 "minzoom" (Nat.repr minZoom)
  let m4 ← insertMetadataRow m3 "maxzoom" (Nat.repr maxZoom)
  pure { db with metadata := m4 }

/-- State of an `mbtilesOutputter`: the durable database, the open write
transaction (`txn`, modelled as a working copy of the database that
replaces it on commit), the `hasTiles` schema flag, the batch counter and
size, and the construction-time metadata values. -/
structure mbtilesOutputter where
  db : DbState
  txn : Option DbState
  hasTiles : Bool
  batchCount : Nat
  batchSize : Nat
  boundsStr : String
  centerStr : String
  minZoom : Nat
  maxZoom : Nat
deriving Repr, DecidableEq

/-- Embedding of `NewMbtilesOutputter(dsn, batchSize, bounds, minZoom,
maxZoom)` opening a fresh database file: no open transaction, schema not
yet created, batch counter zero. -/
def NewMbtilesOutputter (batchSize : Nat) (boundsStr centerStr : String)
    (minZoom maxZoom : Nat) : mbtilesOutputter :=
  ⟨DbState.empty, none, false, 0, batchSize, boundsStr, centerStr, minZoom, maxZoom⟩

/-- Result of one `Save` call: the outputter state after the call (Go
mutates the receiver in place even when it returns an error), whether the
call committed a batch, and the returned error. -/
structure SaveResult where
  o : mbtilesOutputter
  didCommit : Bool
  err : Option String
deriving Repr, DecidableEq

/-- Row index stored by `Save`:
`invertedY := uint32(math.Pow(2.0, float64(tile.Z))) - 1 - tile.Y`.
For `Z < 32` and `Y < 2^Z` (the tile invariant) the `uint32` arithmetic
coincides with this `Nat` expression. -/
def saveInvertedY (z y : Nat) : Nat := 2 ^ z - 1 - y

/-- Embedding of `mbtilesOutputter.Save(tile, data)`
(src/unnamed/part_001 lines 125-169), parametric in the content
fingerprint `hashHex` (abstracting `hex.EncodeToString(md5.Sum(data))`
— any deterministic function of the bytes):
1. `CreateTiles` (idempotent DDL; in the model the tables always exist,
   so only `hasTiles` changes);
2. `AssignMetadata(o.bounds, o.minZoom, o.maxZoom)` on every call, via
   the autocommit connection — an error here aborts the call;
3. begin a transaction when none is open (snapshot of the database);
4. `INSERT OR REPLACE` into images keyed by the content hash, then into
   map at row `2^Z - 1 - Y` (unconditionally inverted);
5. increment `batchCount` and, when `batchCount % batchSize == 0`, commit
   the transaction and reset (`batchCount = 0`, `txn = nil`). -/
def mbtilesOutputter.Save (hashHex : ByteSeq → String) (o : mbtilesOutputter)
    (tile : Tile) (data : ByteSeq) : SaveResult :=
  let o1 := { o with hasTiles := true }
  match AssignMetadata o1.db o1.boundsStr o1.centerStr o1.minZoom o1.maxZoom with
  | Except.error e => ⟨o1, false, some e⟩
  | Except.ok db1 =>
    let o2 := { o1 with db := db1 }
    let workTxn := match o2.txn with
      | none => o2.db
      | some t => t
    let tileID := hashHex data
    let t2 := upsertMap (upsertImages workTxn tileID data)
      tile.z tile.x (saveInvertedY tile.z tile.y) tileID
    let c := o2.batchCount + 1
    if c % o2.batchSize == 0 then
      ⟨{ o2 with db := t2, txn := none, batchCount := 0 }, true, none⟩
    else
      ⟨{ o2 with txn := some t2, batchCount := c }, false, none⟩

/-- Embedding of `mbtilesOutputter.Close`: commits the open transaction if
any and returns the durable database the file holds afterwards. -/
def mbtilesOutputter.Close (o : mbtilesOutputter) : DbState :=
  match o.txn with
  | some t => t
  | none => o.db

/-- Result of `GetTile` (tilepack.TileData): the requested tile and the
content bytes, `none` modelling the nil `Data` pointer. -/
structure TileData where
  tile : Tile
  data : Option ByteSeq
deriving Repr, DecidableEq

/-- The `tiles` view: `SELECT map.zoom_level, map.tile_column,
map.tile_row, images.tile_data FROM map JOIN images ON images.tile_id =
map.tile_id`, in map-scan order. -/
def tilesView (db : DbState) : List (Nat × Nat × Nat × ByteSeq) :=
  db.map.filterMap fun m =>
    (db.images.find? (fun im => im.tile_id == m.tile_id)).map fun im =>
      (m.zoom_level, m.tile_column, m.tile_row, im.tile_data)

/-- The reader point query: `SELECT tile_data FROM tiles WHERE
zoom_level=? AND tile_column=? AND tile_row=? LIMIT 1`, returning the
first matching row's bytes or nothing (`sql.ErrNoRows`). -/
def queryTileRow (db : DbState) (tile : Tile) : Option ByteSeq :=
  ((tilesView db).find?
    (fun r => r.1 == tile.z && r.2.1 == tile.x && r.2.2.1 == tile.y)).map
    (fun r => r.2.2.2)

/-- Embedding of `mbtilesReader.GetTile`'s handling of the row scan
(src/tilepack/mbtiles_reader.go lines 69-89): a scan error equal to
`sql.ErrNoRows` (here `Except.ok none`) yields a blank `TileData` with nil
`Data` and a nil error; any other scan error is returned as-is; a found
row yields its bytes. -/
def GetTile (scan : Except String (Option ByteSeq)) (tile : Tile) :
    Except String TileData :=
  match scan with
  | Except.error e => Except.error e
  | Except.ok none => Except.ok ⟨tile, none⟩
  | Except.ok (some d) => Except.ok ⟨tile, some d⟩

/-- Composition GetTileDb: `GetTile` against a database whose underlying I/O does not
fail: the scan outcome is exactly the point query over the tiles view. -/
def GetTileDb (db : DbState) (tile : Tile) : Except String TileData :=
  GetTile (Except.ok (queryTileRow db tile)) tile

/-- Concrete stand-in for the md5-hex fingerprint used by witnesses and
counterexamples: an injective rendering of the bytes. -/
def demoHash (d : ByteSeq) : String :=
  d.foldl (fun acc b => acc ++ Nat.repr b ++ ".") "md5:"

/-- A fresh outputter with batch size 1 (every save commits). -/
def demoOutputter : mbtilesOutputter :=
  NewMbtilesOutputter 1 "-180,-85,180,85" "0,0" 0 14

/-- Shape of a successful `Save`: whether or not the call committed its
batch, committing via `Close` afterwards yields exactly the working table
produced by the two upserts of this call, for some pre-existing working
state. -/
theorem save_ok_close (hashHex : ByteSeq → String) (o : mbtilesOutputter)
    (tile : Tile) (data : ByteSeq)
    (hok : (mbtilesOutputter.Save hashHex o tile data).err = none) :
    ∃ work : DbState,
      mbtilesOutputter.Close (mbtilesOutputter.Save hashHex o tile data).o =
        upsertMap (upsertImages work (hashHex data) data)
          tile.z tile.x (saveInvertedY tile.z tile.y) (hashHex data) := by
  simp only [mbtilesOutputter.Save] at hok ⊢
  cases hA : AssignMetadata o.db o.boundsStr o.centerStr o.minZoom o.maxZoom with
  | error e => rw [hA] at hok; simp at hok
  | ok db1 =>
    cases ht : o.txn with
    | none =>
      refine ⟨db1, ?_⟩
      by_cases hb : ((o.batchCount + 1) % o.batchSize == 0) = true
      · simp [mbtilesOutputter.Close, hb]
      · simp [mbtilesOutputter.Close, hb]
    | some t =>
      refine ⟨t, ?_⟩
      by_cases hb : ((o.batchCount + 1) % o.batchSize == 0) = true
      · simp [mbtilesOutputter.Close, hb]
      · simp [mbtilesOutputter.Close, hb]

/-- Lookup by tile_id right after an images upsert finds the freshly
written row. -/
theorem find_upsertImages (db : DbState) (tid : String) (d : ByteSeq) :
    (upsertImages db tid d).images.find? (fun im => im.tile_id == tid) =
      some ⟨tid, d⟩ := by
  simp only [upsertImages]
  rw [List.find?_append]
  have h1 : (db.images.filter (fun r => r.tile_id != tid)).find?
      (fun im => im.tile_id == tid) = none := by
    rw [List.find?_eq_none]
    intro q hq
    have := (List.mem_filter.mp hq).2
    simp_all
  rw [h1]
  simp [List.find?]

/-- The point query through the tiles view, after the two upserts of one
save, finds the saved bytes at the stored (inverted) coordinate. -/
theorem queryTileRow_upsert (db : DbState) (z x r : Nat) (tid : String) (d : ByteSeq) :
    queryTileRow (upsertMap (upsertImages db tid d) z x r tid) ⟨z, x, r⟩ = some d := by
  have himg := find_upsertImages db tid d
  simp only [upsertImages] at himg
  simp only [queryTileRow, tilesView, upsertMap, upsertImages]
  rw [List.filterMap_append, List.find?_append]
  have hleft :
      (List.find? (fun (v : Nat × Nat × Nat × ByteSeq) => v.1 == z && v.2.1 == x && v.2.2.1 == r)
        (List.filterMap (fun (m : MapRow) =>
          Option.map (fun (im : ImagesRow) => (m.zoom_level, m.tile_column, m.tile_row, im.tile_data))
            (List.find? (fun (im : ImagesRow) => im.tile_id == m.tile_id)
              (List.filter (fun (q : ImagesRow) => q.tile_id != tid) db.images ++
                ([⟨tid, d⟩] : List ImagesRow))))
          (List.filter (fun (m : MapRow) => !mapKeyMatch z x r m) db.map))) = none := by
    rw [List.find?_eq_none]
    intro v hv
    obtain ⟨m, hm, hvm⟩ := List.mem_filterMap.mp hv
    obtain ⟨hmem, hkeep⟩ := List.mem_filter.mp hm
    obtain ⟨im, him, hveq⟩ := Option.map_eq_some'.mp hvm
    subst hveq
    simp [mapKeyMatch] at hkeep ⊢
    tauto
  rw [hleft]
  simp [List.filterMap, himg, List.find?]

/-- First save of the C1 scenario: fresh writer, tile (0,0,0), bytes
[1,2]. -/
def c1FirstSave : SaveResult :=
  mbtilesOutputter.Save demoHash demoOutputter ⟨0, 0, 0⟩ [1, 2]

/-- Second save of the C1 scenario, with the identical (tile, content). -/
def c1SecondSave : SaveResult :=
  mbtilesOutputter.Save demoHash c1FirstSave.o ⟨0, 0, 0⟩ [1, 2]

/-- C1: the claim states that calling `Save` any number of times with the
same (tile, content) succeeds, leaving one map row and one images row.
The code re-runs `AssignMetadata` on every call with a plain INSERT that
the unique index on metadata.name rejects, so the second call returns a
non-nil error (the single map row and images row do remain). -/
theorem C1_second_save_errors :
    c1FirstSave.err = none ∧
    c1FirstSave.o.db.map.length = 1 ∧
    c1FirstSave.o.db.images.length = 1 ∧
    c1SecondSave.err ≠ none := by decide

/-- The save of the C2 counterexample: tile (1,0,0), bytes [42]. -/
def c2Saved : SaveResult :=
  mbtilesOutputter.Save demoHash demoOutputter ⟨1, 0, 0⟩ [42]

/-- C2: the claim states that `Save(tile, bytes)` then `GetTile(tile)`
returns the bytes.  `Save` stores the row inverted (2^Z - 1 - Y) while
`GetTile` queries the requested row unchanged, so for tile (1,0,0) the
lookup after the commit finds no content instead of the bytes. -/
theorem C2_roundtrip_counterexample :
    c2Saved.err = none ∧
    GetTileDb (mbtilesOutputter.Close c2Saved.o) ⟨1, 0, 0⟩ =
      Except.ok ⟨⟨1, 0, 0⟩, none⟩ := by
  constructor <;> rfl

/-- C2 (amended): after a successful `Save` of (tile, bytes) followed by
the commit in `Close`, `GetTile` returns exactly the saved bytes when
queried at the row-inverted coordinate (Z, X, 2^Z - 1 - Y). -/
theorem C2_roundtrip_inverted_row (hashHex : ByteSeq → String)
    (o : mbtilesOutputter) (tile : Tile) (data : ByteSeq)
    (hok : (mbtilesOutputter.Save hashHex o tile data).err = none) :
    GetTileDb (mbtilesOutputter.Close (mbtilesOutputter.Save hashHex o tile data).o)
      ⟨tile.z, tile.x, saveInvertedY tile.z tile.y⟩ =
      Except.ok ⟨⟨tile.z, tile.x, saveInvertedY tile.z tile.y⟩, some data⟩ := by
  obtain ⟨work, hclose⟩ := save_ok_close hashHex o tile data hok
  rw [GetTileDb, hclose, queryTileRow_upsert]
  rfl

/-- Witness for the amended C2 at tile (1,0,0) with bytes [42]: the
content is found at row 1 = 2^1 - 1 - 0. -/
theorem C2_roundtrip_inverted_row_witness :
    GetTileDb (mbtilesOutputter.Close
        (mbtilesOutputter.Save demoHash demoOutputter ⟨1, 0, 0⟩ [42]).o)
      ⟨1, 0, 1⟩ = Except.ok ⟨⟨1, 0, 1⟩, some [42]⟩ :=
  C2_roundtrip_inverted_row demoHash demoOutputter ⟨1, 0, 0⟩ [42] rfl

/-- The save of the C6 counterexample: tile (1,0,0), bytes [7]. -/
def c6Saved : SaveResult :=
  mbtilesOutputter.Save demoHash demoOutputter ⟨1, 0, 0⟩ [7]

/-- C6: the claim states the row is stored as 2^Z - 1 - Y only when the
archive is configured for the row-inverted convention, and as Y by
default.  The outputter has no such configuration: saving tile (1,0,0) on
a default writer stores the single coordinate row (1,0,1), not (1,0,0). -/
theorem C6_row_not_Y_by_default :
    (mbtilesOutputter.Close c6Saved.o).map.map
      (fun r => (r.zoom_level, r.tile_column, r.tile_row)) = [(1, 0, 1)] := by
  decide

/-- C6 (amended): `Save` always stores the coordinate row 2^Z - 1 - Y:
the mbtiles writer is unconditionally row-inverted (TMS), with no
configuration switch. -/
theorem C6_row_always_inverted (hashHex : ByteSeq → String)
    (o : mbtilesOutputter) (tile : Tile) (data : ByteSeq)
    (hok : (mbtilesOutputter.Save hashHex o tile data).err = none) :
    (mbtilesOutputter.Close (mbtilesOutputter.Save hashHex o tile data).o).map.getLast? =
      some ⟨tile.z, tile.x, saveInvertedY tile.z tile.y, hashHex data⟩ := by
  obtain ⟨work, hclose⟩ := save_ok_close hashHex o tile data hok
  rw [hclose]
  simp [upsertMap, List.getLast?_concat]

/-- Witness for the amended C6 at tile (1,0,0): the appended map row
carries tile_row 1. -/
theorem C6_row_always_inverted_witness :
    (mbtilesOutputter.Close
        (mbtilesOutputter.Save demoHash demoOutputter ⟨1, 0, 0⟩ [7]).o).map.getLast? =
      some ⟨1, 0, 1, demoHash [7]⟩ :=
  C6_row_always_inverted demoHash demoOutputter ⟨1, 0, 0⟩ [7] rfl

/-- C8: a tile whose coordinate is absent from the archive yields
`Except.ok` with nil data — a first-class no-content result, not an
error; a present coordinate yields its bytes; an underlying scan failure
is the only way `GetTile` returns an error. -/
theorem C8_absent_tile_no_error (db : DbState) (tile : Tile) (e : String) :
    (queryTileRow db tile = none →
      GetTileDb db tile = Except.ok ⟨tile, none⟩) ∧
    (∀ d, queryTileRow db tile = some d →
      GetTileDb db tile = Except.ok ⟨tile, some d⟩) ∧
    GetTile (Except.error e) tile = Except.error e := by
  refine ⟨fun h => ?_, fun d h => ?_, rfl⟩
  · rw [GetTileDb, h]
    rfl
  · rw [GetTileDb, h]
    rfl

/-- Witness for C8: the empty archive holds no tile (3,1,2), and the
lookup succeeds with nil data. -/
theorem C8_absent_tile_no_error_witness :
    GetTileDb DbState.empty ⟨3, 1, 2⟩ = Except.ok ⟨⟨3, 1, 2⟩, none⟩ :=
  (C8_absent_tile_no_error DbState.empty ⟨3, 1, 2⟩ "io failure").1 rfl

/-- The state-machine invariant claimed by C10: the batch counter stays
below the batch size, and a transaction is open exactly when the counter
is positive. -/
def writerInv (o : mbtilesOutputter) : Prop :=
  o.batchCount < o.batchSize ∧ (o.txn ≠ none ↔ 0 < o.batchCount)

instance (o : mbtilesOutputter) : Decidable (writerInv o) := by
  unfold writerInv; infer_instance

/-- One successful `Save` from an invariant state preserves the
invariant and the batch size, commits exactly when the incremented
counter reaches the batch size, and resets counter and transaction on
commit. -/
theorem Save_step (hashHex : ByteSeq → String) (o : mbtilesOutputter)
    (tile : Tile) (data : ByteSeq)
    (hsz : 1 ≤ o.batchSize) (hinv : writerInv o)
    (hok : (mbtilesOutputter.Save hashHex o tile data).err = none) :
    writerInv (mbtilesOutputter.Save hashHex o tile data).o ∧
    (mbtilesOutputter.Save hashHex o tile data).o.batchSize = o.batchSize ∧
    ((mbtilesOutputter.Save hashHex o tile data).didCommit ↔
      o.batchCount + 1 = o.batchSize) ∧
    ((mbtilesOutputter.Save hashHex o tile data).didCommit →
      (mbtilesOutputter.Save hashHex o tile data).o.batchCount = 0 ∧
      (mbtilesOutputter.Save hashHex o tile data).o.txn = none) := by
  simp only [mbtilesOutputter.Save] at hok ⊢
  cases hA : AssignMetadata o.db o.boundsStr o.centerStr o.minZoom o.maxZoom with
  | error e => rw [hA] at hok; simp at hok
  | ok db1 =>
    by_cases hb : ((o.batchCount + 1) % o.batchSize == 0) = true
    · have hmod : (o.batchCount + 1) % o.batchSize = 0 := by simpa using hb
      have hdvd : o.batchSize ∣ (o.batchCount + 1) := Nat.dvd_of_mod_eq_zero hmod
      have hle : o.batchSize ≤ o.batchCount + 1 := Nat.le_of_dvd (Nat.succ_pos _) hdvd
      have hceq : o.batchCount + 1 = o.batchSize := by
        have := hinv.1
        omega
      simp [writerInv, hb, hceq]
      omega
    · have hmodne : (o.batchCount + 1) % o.batchSize ≠ 0 := by simpa using hb
      have hcne : o.batchCount + 1 ≠ o.batchSize := fun hEq => hmodne (by
        rw [hEq]; exact Nat.mod_self _)
      simp [writerInv, hb, hcne]
      have := hinv.1
      omega

/-- A sequence of `Save` calls threaded through the writer, returning
none as soon as one call returns a non-nil error (C10 quantifies over
runs in which every call succeeded). -/
def runSaves (hashHex : ByteSeq → String) :
    List (Tile × ByteSeq) → mbtilesOutputter → Option mbtilesOutputter
  | [], o => some o
  | (t, d) :: rest, o =>
    let r := mbtilesOutputter.Save hashHex o t d
    if r.err = none then runSaves hashHex rest r.o else none

/-- The writer invariant propagates along any all-successful run of
saves. -/
theorem runSaves_inv (hashHex : ByteSeq → String) :
    ∀ (seq : List (Tile × ByteSeq)) (o o' : mbtilesOutputter),
      1 ≤ o.batchSize → writerInv o → runSaves hashHex seq o = some o' →
      writerInv o' ∧ o'.batchSize = o.batchSize := by
  intro seq
  induction seq with
  | nil =>
    intro o o' h1 h2 h3
    simp only [runSaves, Option.some_inj] at h3
    subst h3
    exact ⟨h2, rfl⟩
  | cons p rest ih =>
    intro o o' h1 h2 h3
    obtain ⟨t, d⟩ := p
    simp only [runSaves] at h3
    split at h3
    · rename_i hok
      have hstep := Save_step hashHex o t d h1 h2 hok
      have hrec := ih _ o' (hstep.2.1 ▸ h1) hstep.1 h3
      exact ⟨hrec.1, hrec.2.trans hstep.2.1⟩
    · exact absurd h3 (by simp)

/-- C10: starting from a fresh outputter with batchSize at least 1,
after any sequence of `Save` calls that all returned nil the batch
counter lies in [0, batchSize) and a transaction is open exactly when the
counter is positive; and a single successful `Save` from any invariant
state commits exactly when the incremented counter reaches batchSize,
resetting the counter and the transaction. -/
theorem C10_batch_state_machine (hashHex : ByteSeq → String)
    (batchSize : Nat) (boundsStr centerStr : String) (minZoom maxZoom : Nat)
    (hsz : 1 ≤ batchSize) :
    (∀ (seq : List (Tile × ByteSeq)) (o' : mbtilesOutputter),
      runSaves hashHex seq
        (NewMbtilesOutputter batchSize boundsStr centerStr minZoom maxZoom) = some o' →
      o'.batchCount < batchSize ∧ (o'.txn ≠ none ↔ 0 < o'.batchCount)) ∧
    (∀ (o : mbtilesOutputter) (tile : Tile) (data : ByteSeq),
      o.batchSize = batchSize → writerInv o →
      (mbtilesOutputter.Save hashHex o tile data).err = none →
      ((mbtilesOutputter.Save hashHex o tile data).didCommit ↔
        o.batchCount + 1 = batchSize) ∧
      ((mbtilesOutputter.Save hashHex o tile data).didCommit →
        (mbtilesOutputter.Save hashHex o tile data).o.batchCount = 0 ∧
        (mbtilesOutputter.Save hashHex o tile data).o.txn = none)) := by
  constructor
  · intro seq o' hrun
    have hinit : writerInv (NewMbtilesOutputter batchSize boundsStr centerStr minZoom maxZoom) := by
      constructor
      · exact hsz
      · simp [NewMbtilesOutputter]
    obtain ⟨⟨hlt, hiff⟩, hbs⟩ := runSaves_inv hashHex seq _ o' hsz hinit hrun
    have hbs2 : o'.batchSize = batchSize := hbs
    exact ⟨hbs2 ▸ hlt, hiff⟩
  · intro o tile data hbs hinv hok
    have hstep := Save_step hashHex o tile data (hbs ▸ hsz) hinv hok
    exact ⟨hbs ▸ hstep.2.2.1, hstep.2.2.2⟩

/-- Witness for C10: one successful save on a fresh batch-size-1 writer
lands in a committed state satisfying the invariant. -/
theorem C10_batch_state_machine_witness :
    (mbtilesOutputter.Save demoHash (NewMbtilesOutputter 1 "bs" "cs" 0 1)
        ⟨0, 0, 0⟩ [9]).o.batchCount < 1 ∧
    ((mbtilesOutputter.Save demoHash (NewMbtilesOutputter 1 "bs" "cs" 0 1)
        ⟨0, 0, 0⟩ [9]).o.txn ≠ none ↔
      0 < (mbtilesOutputter.Save demoHash (NewMbtilesOutputter 1 "bs" "cs" 0 1)
        ⟨0, 0, 0⟩ [9]).o.batchCount) :=
  (C10_batch_state_machine demoHash 1 "bs" "cs" 0 1 (by decide)).1
    [(⟨0, 0, 0⟩, [9])] _ rfl

/-- Zoom-range aggregation of the merge tool (cmd/merge/main.go lines
361-405): outputMinZoom and outputMaxZoom start as zero-valued uints and
every source folds in with min for BOTH fields
(outputMinZoom = min(outputMinZoom, minZoom);
outputMaxZoom = min(outputMaxZoom, maxZoom)). -/
def mergeZooms (ranges : List (Nat × Nat)) : Nat × Nat :=
  ranges.foldl (fun acc zr => (min acc.1 zr.1, min acc.2 zr.2)) (0, 0)

/-- C5: the claim states the destination minzoom is the minimum of the
source minima and its maxzoom the maximum of the source maxima.  Merging
sources with zoom ranges [2,5] and [3,7] yields (0,0), not (2,7). -/
theorem C5_zoom_aggregation_counterexample :
    mergeZooms [(2, 5), (3, 7)] = (0, 0) ∧ mergeZooms [(2, 5), (3, 7)] ≠ (2, 7) := by
  decide

/-- C5 (amended): the merge computes minzoom = 0 and maxzoom = 0 for
every list of source ranges, because both accumulators start at the
zero value of uint and are folded with min. -/
theorem C5_zoom_aggregation_zero (ranges : List (Nat × Nat)) :
    mergeZooms ranges = (0, 0) := by
  unfold mergeZooms
  induction ranges with
  | nil => rfl
  | cons zr rest ih => simpa [Nat.zero_min] using ih

/-- Outcome of the merge tile-copy phase: a fatal abort (log.Fatalf)
naming the offending source, or completion with the destination
database. -/
inductive MergeOutcome where
  | fatal (msg : String)
  | done (finalDb : DbState)
deriving Repr, DecidableEq

/-- Discriminator: did the merge abort fatally? -/
def MergeOutcome.isFatal : MergeOutcome → Bool
  | MergeOutcome.fatal _ => true
  | MergeOutcome.done _ => false

/-- Number of coordinate rows in the destination of a completed merge
(zero for a fatal abort). -/
def MergeOutcome.mapRowCount : MergeOutcome → Nat
  | MergeOutcome.fatal _ => 0
  | MergeOutcome.done db => db.map.length

/-- The VisitAllTiles visitor used by the merge (cmd/merge/main.go lines
102-109): `Save` into the destination for every row, the return value of
`Save` discarded. -/
def visitSaveAll (hashHex : ByteSeq → String) :
    List (Tile × ByteSeq) → mbtilesOutputter → mbtilesOutputter
  | [], dest => dest
  | (t, d) :: rest, dest =>
    visitSaveAll hashHex rest (mbtilesOutputter.Save hashHex dest t d).o

/-- The merge copy loop: for each source in input order, a read failure
aborts fatally naming the source; otherwise every row is saved (save
errors ignored) and the next source is processed; at the end the
destination is closed (its error also ignored). -/
def mergeCopyTiles (hashHex : ByteSeq → String) :
    List (String × Except String (List (Tile × ByteSeq))) → mbtilesOutputter →
    MergeOutcome
  | [], dest => MergeOutcome.done (mbtilesOutputter.Close dest)
  | (name, Except.error e) :: _, _ =>
    MergeOutcome.fatal ("Could not read tiles from " ++ name ++ ": " ++ e)
  | (_, Except.ok rows) :: rest, dest =>
    mergeCopyTiles hashHex rest (visitSaveAll hashHex rows dest)

/-- Destination writer of the C7 scenario, batch size 1000 as in the
merge tool. -/
def c7Dest : mbtilesOutputter := NewMbtilesOutputter 1000 "-180,-85,180,85" "0,0" 0 1

/-- One readable source holding two distinct tiles. -/
def c7Sources : List (String × Except String (List (Tile × ByteSeq))) :=
  [("a.mbtiles", Except.ok [(⟨0, 0, 0⟩, [1]), (⟨1, 0, 0⟩, [2])])]

/-- C7: the claim states that any write (Save) failure aborts the merge.
The visitor discards the `Save` error: with one source holding two tiles,
the second save returns a non-nil error, yet the merge completes
non-fatally with a single coordinate row — a silently dropped write
failure. -/
theorem C7_save_failure_ignored :
    (mbtilesOutputter.Save demoHash
        (visitSaveAll demoHash [(⟨0, 0, 0⟩, [1])] c7Dest) ⟨1, 0, 0⟩ [2]).err ≠ none ∧
    (mergeCopyTiles demoHash c7Sources c7Dest).isFatal = false ∧
    (mergeCopyTiles demoHash c7Sources c7Dest).mapRowCount = 1 := by decide

/-- C7 (amended): a failing read from a source aborts the merge and
identifies the offending source, but failing `Save` calls into the
destination are silently ignored: with every source readable the merge
never aborts, whatever the save outcomes. -/
theorem C7_read_aborts_save_ignored (hashHex : ByteSeq → String) :
    (∀ (name e : String) (rest : List (String × Except String (List (Tile × ByteSeq))))
        (dest : mbtilesOutputter),
      mergeCopyTiles hashHex ((name, Except.error e) :: rest) dest =
        MergeOutcome.fatal ("Could not read tiles from " ++ name ++ ": " ++ e)) ∧
    (∀ (sources : List (String × Except String (List (Tile × ByteSeq))))
        (dest : mbtilesOutputter),
      (∀ p ∈ sources, p.2.isOk = true) →
      (mergeCopyTiles hashHex sources dest).isFatal = false) := by
  constructor
  · intro name e rest dest
    rfl
  · intro sources
    induction sources with
    | nil => intro dest _; rfl
    | cons p rest ih =>
      intro dest h
      obtain ⟨name, pe⟩ := p
      cases pe with
      | error e =>
        have := h (name, Except.error e) (List.mem_cons_self _ _)
        simp [Except.isOk, Except.toBool] at this
      | ok rows =>
        exact ih _ (fun q hq => h q (List.mem_cons_of_mem _ hq))

/-- Witness for the amended C7: a broken source aborts with a message
naming it; the all-readable scenario completes non-fatally. -/
theorem C7_read_aborts_save_ignored_witness :
    mergeCopyTiles demoHash [("bad.mbtiles", Except.error "disk error")] c7Dest =
      MergeOutcome.fatal "Could not read tiles from bad.mbtiles: disk error" ∧
    (mergeCopyTiles demoHash c7Sources c7Dest).isFatal = false :=
  ⟨(C7_read_aborts_save_ignored demoHash).1 "bad.mbtiles" "disk error" [] c7Dest,
    (C7_read_aborts_save_ignored demoHash).2 c7Sources c7Dest (by decide)⟩
